import Mathlib

/-!
Shallow embedding of the SkillConnect backend (`src/pro/backend/app.py`):
the listing query engine (`/api/jobs` GET, `/api/workers` GET) and the
application lifecycle routes (`/api/jobs/<id>/apply` POST,
`/api/applications/<id>` GET and PUT), together with the record types they
touch.  Monetary amounts (SQL `Float` columns) are modelled as `Int`: the
routes only compare them, and the claims under study involve no fractional
values, so the order embedding is faithful.  Timestamps are modelled as
abstract `Nat` clocks supplied by the caller.
-/

namespace Fep

/-- The fields of the `Job` model read or written by the routes under study
(`jobs` GET, `job_detail`, `apply_job`).  `salary_min`/`salary_max` are
nullable columns, hence `Option`. -/
structure Job where
  id : Nat
  employer_id : Nat
  title : String
  description : String
  skills_required : String
  category : String
  job_type : String
  location : String
  remote_ok : Bool
  salary_min : Option Int
  salary_max : Option Int
  status : String
  views_count : Nat
  applications_count : Nat
  created_at : Nat
  deriving DecidableEq

/-- The fields of the `Application` model read or written by `apply_job` and
`application_detail`.  `status` has column default `'pending'`. -/
structure Application where
  id : Nat
  job_id : Nat
  user_id : Nat
  status : String
  cover_letter : Option String
  expected_salary : Option Int
  available_from : Option String
  employer_notes : Option String
  viewed_by_employer : Bool
  viewed_at : Option Nat
  deriving DecidableEq

/-- The `ApplicationStatusHistory` model: the append-only audit trail written
by the PUT branch of `application_detail`. -/
structure ApplicationStatusHistory where
  application_id : Nat
  from_status : String
  to_status : String
  changed_by_id : Nat
  notes : Option String
  deriving DecidableEq

/-- The fields of the `Notification` model written by `apply_job` and
`application_detail`. -/
structure Notification where
  user_id : Nat
  type : String
  title : String
  content : String
  link : String
  deriving DecidableEq

/-- The fields of the `WorkerProfile` model read by `get_workers`.
`primary_category` is a nullable column. -/
structure WorkerProfile where
  id : Nat
  user_id : Nat
  primary_category : Option String
  location : String
  hourly_rate : Int
  experience_years : Int
  verified : Bool
  top_rated : Bool
  skills : String
  rating : Int
  deriving DecidableEq

/-- The persistent store restricted to the tables the routes under study
touch.  `next_app_id` models the autoincrement primary key of
`applications`. -/
structure DB where
  jobs : List Job
  applications : List Application
  history : List ApplicationStatusHistory
  notifications : List Notification
  workers : List WorkerProfile
  next_app_id : Nat
  deriving DecidableEq

/-! ### Query-string helpers -/

/-- Python truthiness of an optional query-string value: `None` and the empty
string are falsy (`if keyword:` skips the filter), any other string is
truthy. -/
def pyTruthy : Option String → Bool
  | none => false
  | some s => !(s == "")

/-- Digit-string value: `some` of the decimal value when the list is nonempty
and all digits, `none` otherwise. -/
def digitsVal : List Char → Option Nat
  | [] => none
  | cs =>
    cs.foldl
      (fun acc c =>
        match acc with
        | none => none
        | some n => if c.isDigit then some (n * 10 + (c.toNat - 48)) else none)
      (some 0)

/-- Models Python `int(s)` / `float(s)` on the decimal-integer fragment: an
optional sign followed by one or more digits parses to its value, anything
else (e.g. `"abc"`, `""`) raises `ValueError`, modelled as `none`.  The query
parameters under study are integral, so one parser serves both calls; what
matters to the claims is that non-numeric strings fail. -/
def parseNum : String → Option Int
  | s =>
    match s.toList with
    | '-' :: rest => (digitsVal rest).map (fun n => -(n : Int))
    | '+' :: rest => (digitsVal rest).map (fun n => (n : Int))
    | cs => (digitsVal cs).map (fun n => (n : Int))

/-- `charsStartWith hay needle`: `needle` is a first segment of `hay`. -/
def charsStartWith : List Char → List Char → Bool
  | _, [] => true
  | [], _ :: _ => false
  | c :: t, n :: m => c == n && charsStartWith t m

/-- `charsContain hay needle`: `needle` occurs contiguously in `hay`. -/
def charsContain : List Char → List Char → Bool
  | [], needle => needle.isEmpty
  | c :: t, needle => charsStartWith (c :: t) needle || charsContain t needle

/-- SQLAlchemy `.contains(x)` (SQL `LIKE '%x%'`): substring containment.
Modelled case-sensitively; no claim under study involves letter case. -/
def strContains (hay needle : String) : Bool :=
  charsContain hay.toList needle.toList

/-- SQL comparison `col >= v` on a nullable column: `NULL` compares to
nothing, so a row with a `NULL` bound is filtered out. -/
def optGe (x : Option Int) (v : Int) : Bool :=
  match x with
  | none => false
  | some a => decide (v ≤ a)

/-- SQL comparison `col <= v` on a nullable column; `NULL` rows are filtered
out. -/
def optLe (x : Option Int) (v : Int) : Bool :=
  match x with
  | none => false
  | some a => decide (a ≤ v)

/-- A string filter in the route's shape: `if opt:` — absent or empty means
no constraint, otherwise the predicate is applied to the value. -/
def strFilter (o : Option String) (f : String → Bool) : Bool :=
  match o with
  | none => true
  | some s => if s == "" then true else f s

/-- A truthy numeric query parameter in the routes' shape:
`if opt: query.filter(col >= float(opt))`.  `Except.error` is the
`ValueError` raised by `float`/`int` on a non-numeric string, which the
route's catch-all handler turns into an HTTP 500. -/
def numArg : Option String → Except Unit (Option Int)
  | none => Except.ok none
  | some s =>
    if s == "" then Except.ok none
    else
      match parseNum s with
      | some v => Except.ok (some v)
      | none => Except.error ()

/-- `int(request.args.get(key, d))`: the default is already an `int`; a
supplied string must parse or the route raises. -/
def intArgD (d : Int) : Option String → Except Unit Int
  | none => Except.ok d
  | some s =>
    match parseNum s with
    | some v => Except.ok v
    | none => Except.error ()

/-! ### Pagination -/

/-- The slice of fields of `query.paginate(...)` that the routes serialize
into the response body. -/
structure Paginated (α : Type) where
  items : List α
  total : Nat
  pages : Nat
  current_page : Int
  deriving DecidableEq

/-- `query.paginate(page=page, per_page=per_page, error_out=False)` over an
already-ordered row list: with `error_out=False` a page below 1 falls back
to 1 and a per_page below 1 falls back to 20; rows are sliced by
`offset((page-1)*per_page).limit(per_page)`; `pages` is `ceil(total /
per_page)`.  The route reports the caller's raw `page` value back as
`current_page`. -/
def paginate (l : List α) (pageArg perPageArg : Int) : Paginated α :=
  let p : Nat := if pageArg < 1 then 1 else pageArg.toNat
  let pp : Nat := if perPageArg < 1 then 20 else perPageArg.toNat
  { items := (l.drop ((p - 1) * pp)).take pp
    total := l.length
    pages := (l.length + pp - 1) / pp
    current_page := pageArg }

/-! ### `/api/jobs` GET (`jobs`) -/

/-- The query parameters read by the GET branch of `jobs`, each as the raw
optional query string. -/
structure JobsArgs where
  job_type : Option String
  category : Option String
  keyword : Option String
  location : Option String
  remote : Option String
  min_salary : Option String
  max_salary : Option String
  sort : Option String
  page : Option String
  per_page : Option String
  deriving DecidableEq

/-- The filter chain of the `jobs` GET branch applied to one row, with the
numeric bounds already parsed (`mns` from `min_salary`, `mxs` from
`max_salary`): each truthy parameter adds its predicate, `remote` filters
only when it is exactly the string `"true"`. -/
def jobMatches (a : JobsArgs) (mns mxs : Option Int) (j : Job) : Bool :=
  strFilter a.job_type (fun s => j.job_type == s) &&
  strFilter a.category (fun s => j.category == s) &&
  strFilter a.keyword (fun s =>
    strContains j.title s || strContains j.description s ||
      strContains j.skills_required s) &&
  strFilter a.location (fun s => strContains j.location s) &&
  (if a.remote == some ("true") then j.remote_ok else true) &&
  (match mns with
   | none => true
   | some v => optGe j.salary_min v) &&
  (match mxs with
   | none => true
   | some v => optLe j.salary_max v)

/-- The row set of the `jobs` GET query before ordering and pagination: the
base query is `Job.query.filter_by(status='active')`, then the optional
filters. -/
def jobsFilter (db : DB) (a : JobsArgs) (mns mxs : Option Int) : List Job :=
  db.jobs.filter (fun j => j.status == "active" && jobMatches a mns mxs j)

/-- `salary_max.desc()` ordering key: higher bounds first, `NULL` last (the
SQLite default for `DESC`). -/
def salaryDescLe (x y : Option Int) : Bool :=
  match x, y with
  | _, none => true
  | none, some _ => false
  | some a, some b => decide (b ≤ a)

/-- The `order_by` dispatch of the `jobs` GET branch: `salary` orders by
`salary_max` descending, `applications` by `applications_count` descending,
everything else (including an absent `sort`) by `created_at` descending.
SQL `ORDER BY` on equal keys is modelled as a stable sort. -/
def sortJobs (sort : Option String) (l : List Job) : List Job :=
  if sort == some ("salary") then
    l.insertionSort (fun a b => salaryDescLe a.salary_max b.salary_max = true)
  else if sort == some ("applications") then
    l.insertionSort (fun a b => b.applications_count ≤ a.applications_count)
  else
    l.insertionSort (fun a b => b.created_at ≤ a.created_at)

/-- The responses the `jobs` GET branch can produce: the serialized
pagination on success, or the catch-all `jsonify({'error': ...}), 500` when
a conversion raises. -/
inductive JobsResult where
  | ok (r : Paginated Job)
  | err (code : Nat)
  deriving DecidableEq

/-- The GET branch of the `jobs` route: build the filtered query (parsing
`min_salary`/`max_salary` with `float`), order it, parse `page`/`per_page`
with `int` (defaults 1 and 20), and paginate.  Any `ValueError` propagates
to the catch-all `except`, which answers 500.  The branch performs no
mutation, so it returns no store. -/
def jobs (db : DB) (a : JobsArgs) : JobsResult :=
  match numArg a.min_salary, numArg a.max_salary,
      intArgD 1 a.page, intArgD 20 a.per_page with
  | Except.ok mns, Except.ok mxs, Except.ok pg, Except.ok pp =>
    JobsResult.ok (paginate (sortJobs a.sort (jobsFilter db a mns mxs)) pg pp)
  | _, _, _, _ => JobsResult.err 500

/-! ### `/api/workers` GET (`get_workers`) -/

/-- The query parameters read by `get_workers`, each as the raw optional
query string. -/
structure WorkersArgs where
  category : Option String
  location : Option String
  min_rate : Option String
  max_rate : Option String
  min_experience : Option String
  verified : Option String
  top_rated : Option String
  skills : Option String
  user_id : Option String
  sort : Option String
  page : Option String
  per_page : Option String
  deriving DecidableEq

/-- The filter chain of `get_workers` applied to one row, with the numeric
parameters already parsed.  `filter_by(primary_category=...)` on the
nullable column excludes `NULL` rows; `verified`/`top_rated` filter only
when exactly `"true"`. -/
def workerMatches (a : WorkersArgs) (uidF mnr mxr mne : Option Int)
    (w : WorkerProfile) : Bool :=
  (match uidF with
   | none => true
   | some v => decide ((w.user_id : Int) = v)) &&
  strFilter a.category (fun s =>
    match w.primary_category with
    | none => false
    | some c => c == s) &&
  strFilter a.location (fun s => strContains w.location s) &&
  (match mnr with
   | none => true
   | some v => decide (v ≤ w.hourly_rate)) &&
  (match mxr with
   | none => true
   | some v => decide (w.hourly_rate ≤ v)) &&
  (match mne with
   | none => true
   | some v => decide (v ≤ w.experience_years)) &&
  (if a.verified == some ("true") then w.verified else true) &&
  (if a.top_rated == some ("true") then w.top_rated else true) &&
  strFilter a.skills (fun s => strContains w.skills s)

/-- The row set of `get_workers` before ordering and pagination: the base
query is unrestricted (`WorkerProfile.query`). -/
def workersFilter (db : DB) (a : WorkersArgs) (uidF mnr mxr mne : Option Int) :
    List WorkerProfile :=
  db.workers.filter (workerMatches a uidF mnr mxr mne)

/-- The `order_by` dispatch of `get_workers`: `sort` defaults to `"rating"`;
an unrecognized value applies no ordering at all. -/
def sortWorkers (sort : Option String) (l : List WorkerProfile) :
    List WorkerProfile :=
  let s := sort.getD ("rating")
  if s == "rating" then l.insertionSort (fun a b => b.rating ≤ a.rating)
  else if s == "experience" then
    l.insertionSort (fun a b => b.experience_years ≤ a.experience_years)
  else if s == "rate_low" then
    l.insertionSort (fun a b => a.hourly_rate ≤ b.hourly_rate)
  else if s == "rate_high" then
    l.insertionSort (fun a b => b.hourly_rate ≤ a.hourly_rate)
  else l

/-- The responses of `get_workers`: pagination on success or the catch-all
500. -/
inductive WorkersResult where
  | ok (r : Paginated WorkerProfile)
  | err (code : Nat)
  deriving DecidableEq

/-- The `get_workers` route: parse `user_id` with `int` and
`min_rate`/`max_rate` with `float` and `min_experience` with `int` (each
only when truthy), filter, order, and paginate; a `ValueError` anywhere is
answered with the catch-all 500.  Read-only. -/
def get_workers (db : DB) (a : WorkersArgs) : WorkersResult :=
  match numArg a.user_id, numArg a.min_rate, numArg a.max_rate,
      numArg a.min_experience, intArgD 1 a.page, intArgD 20 a.per_page with
  | Except.ok uidF, Except.ok mnr, Except.ok mxr, Except.ok mne,
      Except.ok pg, Except.ok pp =>
    WorkersResult.ok
      (paginate (sortWorkers a.sort (workersFilter db a uidF mnr mxr mne)) pg pp)
  | _, _, _, _, _, _ => WorkersResult.err 500

/-! ### Row lookups and in-place updates -/

/-- `Job.query.get(jid)` / primary-key lookup. -/
def findJob (db : DB) (jid : Nat) : Option Job :=
  db.jobs.find? (fun j => j.id == jid)

/-- `Application.query.get_or_404(aid)` lookup (the 404 case is handled at
each route). -/
def findApp (db : DB) (aid : Nat) : Option Application :=
  db.applications.find? (fun a => a.id == aid)

/-- Persisting a mutation of the ORM `Job` object with the given id. -/
def replaceJob (l : List Job) (j : Job) : List Job :=
  l.map (fun k => if k.id == j.id then j else k)

/-- Persisting a mutation of the ORM `Application` object with the given
id. -/
def replaceApp (l : List Application) (a : Application) : List Application :=
  l.map (fun b => if b.id == a.id then a else b)

/-! ### `/api/jobs/<id>/apply` POST (`apply_job`) -/

/-- The JSON payload fields `apply_job` reads. -/
structure ApplyPayload where
  cover_letter : Option String
  expected_salary : Option Int
  available_from : Option String
  deriving DecidableEq

/-- The responses `apply_job` can produce. -/
inductive ApplyResult where
  | created
  | notFound
  | notActive
  | alreadyApplied
  | serverError
  deriving DecidableEq

/-- `apply_job(job_id)` for authenticated caller `uid`.  The route issues two
separate `db.session.commit()` calls: the first persists the new
`Application` together with the `applications_count` increment, the second
persists the employer `Notification`.  `c1`/`c2` model whether each commit
succeeds; a failing commit raises, and the `except` handler's
`db.session.rollback()` discards only uncommitted session state, so what the
first commit persisted survives a failure of the second. -/
def apply_job (db : DB) (uid jid : Nat) (p : ApplyPayload) (c1 c2 : Bool) :
    ApplyResult × DB :=
  match findJob db jid with
  | none => (ApplyResult.notFound, db)
  | some job =>
    if !(job.status == "active") then (ApplyResult.notActive, db)
    else if db.applications.any (fun a => a.job_id == jid && a.user_id == uid) then
      (ApplyResult.alreadyApplied, db)
    else if !c1 then (ApplyResult.serverError, db)
    else
      let application : Application :=
        { id := db.next_app_id
          job_id := jid
          user_id := uid
          status := "pending"
          cover_letter := p.cover_letter
          expected_salary := p.expected_salary
          available_from := p.available_from
          employer_notes := none
          viewed_by_employer := false
          viewed_at := none }
      let db1 : DB :=
        { db with
          applications := db.applications ++ [application]
          jobs := replaceJob db.jobs
            { job with applications_count := job.applications_count + 1 }
          next_app_id := db.next_app_id + 1 }
      if !c2 then (ApplyResult.serverError, db1)
      else
        let notification : Notification :=
          { user_id := job.employer_id
            type := "new_application"
            title := "New Job Application"
            content := "Someone applied for " ++ job.title
            link := "/applications/" ++ toString application.id }
        (ApplyResult.created,
          { db1 with notifications := db1.notifications ++ [notification] })

/-! ### `/api/applications/<id>` (`application_detail`) -/

/-- The responses of the GET branch of `application_detail`. -/
inductive DetailGetResult where
  | ok
  | unauthorized
  | notFound
  | serverError
  deriving DecidableEq

/-- The GET branch of `application_detail` for caller `uid` at time `now`:
after the ownership check, the employer's first view sets
`viewed_by_employer` and stamps `viewed_at`, committed immediately; any
later view takes neither branch and mutates nothing.  A missing parent job
(`application.job` unset) or a failing commit (`c` false) hits the `except`
handler, which answers 500; the session is discarded at request teardown, so
the store is unchanged there. -/
def application_detail_get (db : DB) (uid aid now : Nat) (c : Bool) :
    DetailGetResult × DB :=
  match findApp db aid with
  | none => (DetailGetResult.notFound, db)
  | some application =>
    match findJob db application.job_id with
    | none => (DetailGetResult.serverError, db)
    | some job =>
      if !(application.user_id == uid) && !(job.employer_id == uid) then
        (DetailGetResult.unauthorized, db)
      else if job.employer_id == uid && !application.viewed_by_employer then
        if !c then (DetailGetResult.serverError, db)
        else
          (DetailGetResult.ok,
            { db with
              applications := replaceApp db.applications
                { application with
                  viewed_by_employer := true
                  viewed_at := some now } })
      else (DetailGetResult.ok, db)

/-- The JSON body fields the PUT branch of `application_detail` reads:
`status` present iff the `'status' in data` test passes, likewise
`employer_notes`; `notes` via `data.get('notes')`. -/
structure PutData where
  status : Option String
  notes : Option String
  employer_notes : Option String
  deriving DecidableEq

/-- The responses of the PUT branch of `application_detail`. -/
inductive PutResult where
  | updated
  | unauthorized
  | notFound
  | serverError
  deriving DecidableEq

/-- The PUT branch of `application_detail` for caller `uid`: only the
posting's employer may proceed; when `status` is in the body the
application's status is overwritten with the supplied value — there is no
validation of the transition — and an `ApplicationStatusHistory` row
(`from_status` = the status before the call, `to_status` = the new value,
`changed_by_id` = the caller, `notes` from the body) and an
`application_status` `Notification` to the applicant are added to the
session; when `employer_notes` is in the body it is overwritten too; one
`db.session.commit()` persists everything.  A failing commit (`c` false)
raises and the handler rolls the whole session back, leaving the store
unchanged. -/
def application_detail_put (db : DB) (uid aid : Nat) (d : PutData) (c : Bool) :
    PutResult × DB :=
  match findApp db aid with
  | none => (PutResult.notFound, db)
  | some application =>
    match findJob db application.job_id with
    | none => (PutResult.serverError, db)
    | some job =>
      if !(job.employer_id == uid) then (PutResult.unauthorized, db)
      else
        let old_status := application.status
        let app1 :=
          match d.status with
          | some s => { application with status := s }
          | none => application
        let newHist : List ApplicationStatusHistory :=
          match d.status with
          | some s =>
            [{ application_id := aid
               from_status := old_status
               to_status := s
               changed_by_id := uid
               notes := d.notes }]
          | none => []
        let newNotifs : List Notification :=
          match d.status with
          | some s =>
            [{ user_id := application.user_id
               type := "application_status"
               title := "Application Status Updated"
               content := "Your application status changed to " ++ s
               link := "/applications/" ++ toString aid }]
          | none => []
        let app2 :=
          match d.employer_notes with
          | some en => { app1 with employer_notes := some en }
          | none => app1
        if !c then (PutResult.serverError, db)
        else
          (PutResult.updated,
            { db with
              applications := replaceApp db.applications app2
              history := db.history ++ newHist
              notifications := db.notifications ++ newNotifs })

/-! ### Traces over the application-lifecycle routes -/

/-- One request against the application-lifecycle routes (the only code
paths that create applications or touch their status, audit trail, or the
related notifications). -/
inductive Op where
  | apply (uid jid : Nat) (p : ApplyPayload) (c1 c2 : Bool)
  | view (uid aid now : Nat) (c : Bool)
  | put (uid aid : Nat) (d : PutData) (c : Bool)
  deriving DecidableEq

/-- The store after serving one request. -/
def runOp (db : DB) : Op → DB
  | Op.apply uid jid p c1 c2 => (apply_job db uid jid p c1 c2).2
  | Op.view uid aid now c => (application_detail_get db uid aid now c).2
  | Op.put uid aid d c => (application_detail_put db uid aid d c).2

/-- The store after serving a sequence of requests. -/
def run (db : DB) (ops : List Op) : DB :=
  ops.foldl runOp db

/-- The audit-trail rows of one application, in insertion order. -/
def eventsFor (db : DB) (aid : Nat) : List ApplicationStatusHistory :=
  db.history.filter (fun h => h.application_id == aid)

/-- The audit condition for one application: with no audit row its status is
still the submission default `'pending'`; otherwise the most recent audit
row's `to_status` is exactly its current status. -/
def auditOk (db : DB) (a : Application) : Bool :=
  match (eventsFor db a.id).getLast? with
  | none => a.status == "pending"
  | some e => e.to_status == a.status

/-- Every stored application satisfies its audit condition. -/
def auditInv (db : DB) : Prop :=
  ∀ a ∈ db.applications, auditOk db a = true

/-- Structural well-formedness of the store: application ids are below the
autoincrement counter and pairwise distinct, audit rows reference only
already-allocated ids, and the audit condition holds. -/
def wfDB (db : DB) : Prop :=
  (∀ a ∈ db.applications, a.id < db.next_app_id) ∧
  (db.applications.map (fun a => a.id)).Nodup ∧
  (∀ h ∈ db.history, h.application_id < db.next_app_id) ∧
  auditInv db

/-! ### Spec-side predicates (for comparison with the code)

The salary predicates as the specification document words them, to be
compared with the filter the code actually builds. -/

/-- Modelled from the spec's words: `salary_min: record.salary_max ≥ value`
(the bound compared against the opposite end of the posting's range). -/
def salary_min_spec (v : Int) (j : Job) : Bool :=
  optGe j.salary_max v

/-- Modelled from the spec's words: `salary_max: record.salary_min ≤ value`. -/
def salary_max_spec (v : Int) (j : Job) : Bool :=
  optLe j.salary_min v

/-! ### Concrete stores and requests used to instantiate the theorems -/

/-- A `jobs` GET request with every query parameter absent. -/
def noJobsArgs : JobsArgs :=
  ⟨none, none, none, none, none, none, none, none, none, none⟩

/-- A `get_workers` request with every query parameter absent. -/
def noWorkersArgs : WorkersArgs :=
  ⟨none, none, none, none, none, none, none, none, none, none, none, none⟩

/-- An active posting with salary range 10..100. -/
def jobC3 : Job :=
  { id := 1, employer_id := 2, title := "t", description := "d",
    skills_required := "s", category := "c", job_type := "ft",
    location := "Mumbai", remote_ok := false, salary_min := some 10,
    salary_max := some 100, status := "active", views_count := 0,
    applications_count := 0, created_at := 0 }

/-- A store holding just the posting above. -/
def dbC3 : DB := ⟨[jobC3], [], [], [], [], 1⟩

/-- A store holding 150 active postings. -/
def bigDB : DB :=
  ⟨(List.range 150).map (fun n =>
    { id := n, employer_id := 0, title := "t", description := "d",
      skills_required := "s", category := "c", job_type := "ft",
      location := "l", remote_ok := false, salary_min := none,
      salary_max := none, status := "active", views_count := 0,
      applications_count := 0, created_at := 0 }), [], [], [], [], 0⟩

/-- An active posting owned by employer 7, with one application on record. -/
def jobH : Job :=
  { id := 1, employer_id := 7, title := "T", description := "D",
    skills_required := "S", category := "c", job_type := "ft",
    location := "l", remote_ok := false, salary_min := none,
    salary_max := none, status := "active", views_count := 0,
    applications_count := 1, created_at := 0 }

/-- An application by worker 5 to the posting above, already in the terminal
status `hired`. -/
def appHired : Application :=
  { id := 3, job_id := 1, user_id := 5, status := "hired",
    cover_letter := none, expected_salary := none, available_from := none,
    employer_notes := none, viewed_by_employer := false, viewed_at := none }

/-- A store where application 3 is `hired`, with its audit row on record. -/
def dbHired : DB :=
  ⟨[jobH], [appHired], [⟨3, "pending", "hired", 7, none⟩], [], [], 4⟩

/-- An application by worker 5 to posting 1 whose status is `withdrawn`. -/
def appWithdrawn : Application :=
  { id := 3, job_id := 1, user_id := 5, status := "withdrawn",
    cover_letter := none, expected_salary := none, available_from := none,
    employer_notes := none, viewed_by_employer := false, viewed_at := none }

/-- A store where worker 5's only application to posting 1 is withdrawn. -/
def dbWd : DB := ⟨[jobH], [appWithdrawn], [], [], [], 4⟩

/-- A store with the active posting and no applications at all. -/
def dbFresh : DB := ⟨[jobH], [], [], [], [], 4⟩

/-- A pending application not yet viewed by the employer. -/
def appUnviewed : Application :=
  { id := 3, job_id := 1, user_id := 5, status := "pending",
    cover_letter := none, expected_salary := none, available_from := none,
    employer_notes := none, viewed_by_employer := false, viewed_at := none }

/-- A store where application 3 is pending and unviewed. -/
def dbV : DB := ⟨[jobH], [appUnviewed], [], [], [], 4⟩

/-- The items served by a `jobs` GET response (empty on the error answer). -/
def jobsItems : JobsResult → List Job
  | JobsResult.ok r => r.items
  | JobsResult.err _ => []

/-- The employer's first-view mutation of the GET branch of
`application_detail`: `viewed_by_employer = True` and `viewed_at` stamped. -/
def markViewedApp (application : Application) (t : Nat) : Application :=
  { application with viewed_by_employer := true, viewed_at := some t }

/-- The observable effects of `apply_job` under its two commit points, for a
posting that exists, is active, and has no prior application by the caller:
with both commits succeeding, the pending application row, the posting's
counter increment and the employer notification are all present; with the
first commit failing, the store is untouched; with only the second commit
failing, the application row and the counter increment are present but the
notification is not. -/
def submitEffects (db : DB) (uid jid : Nat) (p : ApplyPayload) (job : Job) :
    Prop :=
  ((apply_job db uid jid p true true).1 = ApplyResult.created ∧
    (∃ na, (apply_job db uid jid p true true).2.applications =
        db.applications ++ [na] ∧
      na.job_id = jid ∧ na.user_id = uid ∧ na.status = "pending") ∧
    (apply_job db uid jid p true true).2.jobs =
      replaceJob db.jobs
        { job with applications_count := job.applications_count + 1 } ∧
    (∃ nt, (apply_job db uid jid p true true).2.notifications =
        db.notifications ++ [nt] ∧
      nt.user_id = job.employer_id ∧ nt.type = "new_application")) ∧
  ((apply_job db uid jid p false true).1 = ApplyResult.serverError ∧
    (apply_job db uid jid p false true).2 = db) ∧
  ((apply_job db uid jid p true false).1 = ApplyResult.serverError ∧
    (∃ na, (apply_job db uid jid p true false).2.applications =
        db.applications ++ [na] ∧
      na.job_id = jid ∧ na.user_id = uid ∧ na.status = "pending") ∧
    (apply_job db uid jid p true false).2.notifications = db.notifications)

/-! ## Supporting lemmas -/

/-- Persisting an ORM mutation leaves the list of application ids
unchanged. -/
theorem replaceApp_map_id (l : List Application) (y : Application) :
    (replaceApp l y).map (fun x => x.id) = l.map (fun x => x.id) := by
  unfold replaceApp
  rw [List.map_map]
  apply List.map_congr_left
  intro b _
  simp only [Function.comp_apply]
  by_cases hb : (b.id == y.id) = true
  · rw [if_pos hb]
    exact (beq_iff_eq.1 hb).symm
  · rw [if_neg hb]

/-- The audit condition only reads an application's id and status. -/
theorem auditOk_congr (db : DB) (x y : Application)
    (hid : y.id = x.id) (hst : y.status = x.status) :
    auditOk db y = auditOk db x := by
  unfold auditOk
  rw [hid, hst]

/-- Membership in a persisted mutation comes from membership in the original
list. -/
theorem mem_replaceApp (l : List Application) (y b' : Application)
    (hb' : b' ∈ replaceApp l y) :
    ∃ b ∈ l, b' = if (b.id == y.id) = true then y else b := by
  unfold replaceApp at hb'
  obtain ⟨b, hb, hbe⟩ := List.mem_map.1 hb'
  exact ⟨b, hb, hbe.symm⟩

/-- The audit condition only reads the audit-trail table of the store. -/
theorem auditOk_hist (db db' : DB) (a : Application)
    (hh : db'.history = db.history) : auditOk db' a = auditOk db a := by
  unfold auditOk eventsFor
  rw [hh]

/-- Well-formedness survives creating a fresh pending application (the
`apply_job` write). -/
theorem wfDB_snoc_fresh (db db' : DB) (na : Application)
    (happs : db'.applications = db.applications ++ [na])
    (hhist : db'.history = db.history)
    (hnext : db'.next_app_id = db.next_app_id + 1)
    (hid : na.id = db.next_app_id) (hst : na.status = "pending")
    (h : wfDB db) : wfDB db' := by
  obtain ⟨hlt, hnd, hhlt, haud⟩ := h
  refine ⟨?_, ?_, ?_, ?_⟩
  · intro a ha
    rw [happs] at ha
    rw [hnext]
    rcases List.mem_append.1 ha with ha | ha
    · exact Nat.lt_succ_of_lt (hlt a ha)
    · rw [List.mem_singleton.1 ha, hid]
      exact Nat.lt_succ_self _
  · rw [happs]
    simp only [List.map_append, List.map_cons, List.map_nil]
    rw [List.nodup_append]
    refine ⟨hnd, List.nodup_singleton _, ?_⟩
    intro v hv hv2
    rw [List.mem_singleton.1 hv2] at hv
    obtain ⟨b, hb, hbid⟩ := List.mem_map.1 hv
    have := hlt b hb
    rw [hbid, hid] at this
    exact Nat.lt_irrefl _ this
  · intro e he
    rw [hhist] at he
    rw [hnext]
    exact Nat.lt_succ_of_lt (hhlt e he)
  · intro a ha
    rw [happs] at ha
    rw [auditOk_hist db db' a hhist]
    rcases List.mem_append.1 ha with ha | ha
    · exact haud a ha
    · rw [List.mem_singleton.1 ha]
      unfold auditOk eventsFor
      have hnil : db.history.filter
          (fun e => e.application_id == na.id) = [] := by
        rw [List.filter_eq_nil_iff]
        intro e he
        have := hhlt e he
        simp only [beq_iff_eq, hid]
        omega
      rw [hnil]
      simp [hst]

/-- Well-formedness survives replacing an application by one with the same
id and status (the first-view write, or a notes-only update). -/
theorem wfDB_replace (db db' : DB) (x y : Application)
    (happs : db'.applications = replaceApp db.applications y)
    (hhist : db'.history = db.history)
    (hnext : db'.next_app_id = db.next_app_id)
    (hmem : x ∈ db.applications) (hid : y.id = x.id)
    (hst : y.status = x.status)
    (h : wfDB db) : wfDB db' := by
  obtain ⟨hlt, hnd, hhlt, haud⟩ := h
  refine ⟨?_, ?_, ?_, ?_⟩
  · intro a ha
    rw [happs] at ha
    rw [hnext]
    obtain ⟨b, hb, hbe⟩ := mem_replaceApp _ _ _ ha
    by_cases hc : (b.id == y.id) = true
    · rw [hbe, if_pos hc, hid]
      exact hlt x hmem
    · rw [hbe, if_neg hc]
      exact hlt b hb
  · rw [happs, replaceApp_map_id]
    exact hnd
  · intro e he
    rw [hhist] at he
    rw [hnext]
    exact hhlt e he
  · intro a ha
    rw [happs] at ha
    rw [auditOk_hist db db' a hhist]
    obtain ⟨b, hb, hbe⟩ := mem_replaceApp _ _ _ ha
    by_cases hc : (b.id == y.id) = true
    · rw [hbe, if_pos hc, auditOk_congr db x y hid hst]
      exact haud x hmem
    · rw [hbe, if_neg hc]
      exact haud b hb

/-- Well-formedness survives a status overwrite committed together with its
audit row (the `application_detail` PUT write): the new row references the
mutated application and records the new status as `to_status`. -/
theorem wfDB_transition (db db' : DB) (x y : Application)
    (ev : ApplicationStatusHistory)
    (happs : db'.applications = replaceApp db.applications y)
    (hhist : db'.history = db.history ++ [ev])
    (hnext : db'.next_app_id = db.next_app_id)
    (hmem : x ∈ db.applications) (hid : y.id = x.id)
    (hev_id : ev.application_id = y.id) (hev_to : ev.to_status = y.status)
    (h : wfDB db) : wfDB db' := by
  obtain ⟨hlt, hnd, hhlt, haud⟩ := h
  refine ⟨?_, ?_, ?_, ?_⟩
  · intro a ha
    rw [happs] at ha
    rw [hnext]
    obtain ⟨b, hb, hbe⟩ := mem_replaceApp _ _ _ ha
    by_cases hc : (b.id == y.id) = true
    · rw [hbe, if_pos hc, hid]
      exact hlt x hmem
    · rw [hbe, if_neg hc]
      exact hlt b hb
  · rw [happs, replaceApp_map_id]
    exact hnd
  · intro e he
    rw [hhist] at he
    rw [hnext]
    rcases List.mem_append.1 he with he | he
    · exact hhlt e he
    · rw [List.mem_singleton.1 he, hev_id, hid]
      exact hlt x hmem
  · intro a ha
    rw [happs] at ha
    obtain ⟨b, hb, hbe⟩ := mem_replaceApp _ _ _ ha
    by_cases hc : (b.id == y.id) = true
    · rw [hbe, if_pos hc]
      unfold auditOk eventsFor
      rw [hhist, List.filter_append]
      have hevy : (ev.application_id == y.id) = true := by simp [hev_id]
      rw [show List.filter (fun e2 => e2.application_id == y.id) [ev] =
        [ev] from by simp [hevy]]
      rw [List.getLast?_concat]
      simp [hev_to]
    · rw [hbe, if_neg hc]
      unfold auditOk eventsFor
      rw [hhist, List.filter_append]
      have hbidne : (ev.application_id == b.id) = false := by
        rw [hev_id, beq_eq_false_iff_ne]
        intro hq
        exact hc (beq_iff_eq.2 hq.symm)
      rw [show List.filter (fun e2 => e2.application_id == b.id) [ev] =
        [] from by simp [hbidne]]
      rw [List.append_nil]
      have := haud b hb
      unfold auditOk eventsFor at this
      exact this

/-- Every single request preserves well-formedness of the store. -/
theorem wfDB_runOp (db : DB) (op : Op) (h : wfDB db) : wfDB (runOp db op) := by
  cases op with
  | apply uid jid p c1 c2 =>
    unfold runOp apply_job
    rcases hj : findJob db jid with _ | job
    · simp only [hj]
      exact h
    · simp only [hj]
      split
      · exact h
      · split
        · exact h
        · split
          · exact h
          · split
            · exact wfDB_snoc_fresh db _ _ rfl rfl rfl rfl rfl h
            · exact wfDB_snoc_fresh db _ _ rfl rfl rfl rfl rfl h
  | view uid aid now c =>
    unfold runOp application_detail_get
    rcases ha : findApp db aid with _ | application
    · simp only [ha]
      exact h
    · rcases hj : findJob db application.job_id with _ | job
      · simp only [ha, hj]
        exact h
      · have hmem : application ∈ db.applications :=
          List.mem_of_find?_eq_some ha
        simp only [ha, hj]
        split
        · exact h
        · split
          · split
            · exact h
            · exact wfDB_replace db _ application _ rfl rfl rfl hmem rfl rfl h
          · exact h
  | put uid aid d c =>
    unfold runOp application_detail_put
    rcases ha : findApp db aid with _ | application
    · simp only [ha]
      exact h
    · rcases hj : findJob db application.job_id with _ | job
      · simp only [ha, hj]
        exact h
      · have hmem : application ∈ db.applications :=
          List.mem_of_find?_eq_some ha
        have hid2 : application.id = aid := by
          simpa using List.find?_some ha
        simp only [ha, hj]
        split
        · exact h
        · split
          · exact h
          · rcases hs : d.status with _ | s <;>
              rcases hen : d.employer_notes with _ | en <;>
              simp only [hs, hen]
            · exact wfDB_replace db _ application application rfl
                (by simp) rfl hmem rfl rfl h
            · exact wfDB_replace db _ application _ rfl
                (by simp) rfl hmem rfl rfl h
            · exact wfDB_transition db _ application _ _ rfl rfl rfl
                hmem rfl hid2.symm rfl h
            · exact wfDB_transition db _ application _ _ rfl rfl rfl
                hmem rfl hid2.symm rfl h

/-- Every request sequence preserves well-formedness of the store. -/
theorem wfDB_run (db : DB) (ops : List Op) (h : wfDB db) :
    wfDB (run db ops) := by
  induction ops generalizing db with
  | nil => exact h
  | cons op t ih => exact ih _ (wfDB_runOp db op h)

/-- A primary-key lookup after a persisted mutation returns the mutated
row, provided the mutated row keeps the id of the row the lookup found. -/
theorem find?_replaceApp (l : List Application) (aid : Nat)
    (x y : Application)
    (h : l.find? (fun b => b.id == aid) = some x) (hy : y.id = x.id) :
    (replaceApp l y).find? (fun b => b.id == aid) = some y := by
  induction l with
  | nil => simp at h
  | cons c t ih =>
    unfold replaceApp at ih ⊢
    simp only [List.map_cons]
    by_cases hc : (c.id == aid) = true
    · simp only [List.find?_cons, hc] at h
      injection h with hx
      subst hx
      have h1 : (c.id == y.id) = true := by simp [hy]
      have h2 : (y.id == aid) = true := by
        simp only [beq_iff_eq] at hc ⊢
        rw [hy]
        exact hc
      simp [List.find?_cons, h1, h2]
    · rw [Bool.not_eq_true] at hc
      simp only [List.find?_cons, hc] at h
      have hxid : x.id = aid := by simpa using List.find?_some h
      have hcne : ¬ c.id = aid := by simpa using hc
      have hcy : (c.id == y.id) = false := by
        rw [hy, hxid]
        simpa using hcne
      rw [if_neg (by simp [hcy])]
      simp only [List.find?_cons]
      rw [hc]
      exact ih h

/-- The `order_by` stage of the `jobs` GET branch permutes its input, so
membership is unchanged. -/
theorem mem_sortJobs {j : Job} (s : Option String) (l : List Job) :
    j ∈ sortJobs s l ↔ j ∈ l := by
  unfold sortJobs
  split
  · exact (List.perm_insertionSort _ l).mem_iff
  · split
    · exact (List.perm_insertionSort _ l).mem_iff
    · exact (List.perm_insertionSort _ l).mem_iff

/-! ## Claims -/

/-- C1 (counterexample): the claim says a transition out of the terminal
status `hired` (for example back to `pending`) must fail with
`InvalidTransitionError` and leave the status unchanged.  In the code the
PUT branch of `application_detail` performs no such check: on the store
where application 3 is `hired`, the employer's request for `pending`
succeeds and the stored status becomes `pending`. -/
theorem C1_counterexample :
    (application_detail_put dbHired 7 3 ⟨some ("pending"), none, none⟩
      true).1 = PutResult.updated ∧
    ((application_detail_put dbHired 7 3 ⟨some ("pending"), none, none⟩
        true).2.applications.map (fun a => a.status)) = ["pending"] := by
  decide

/-- C1 (amended): the transition operation validates nothing about the
requested status change: whenever the caller is the posting's employer and
a `status` key is supplied, the request succeeds and every stored row of
that application carries the requested value — whatever the previous
status, terminal or not; no `InvalidTransitionError` exists in the code. -/
theorem C1_amended (db : DB) (uid aid : Nat) (d : PutData) (s : String)
    (application : Application) (job : Job)
    (happ : findApp db aid = some application)
    (hjob : findJob db application.job_id = some job)
    (hemp : job.employer_id = uid)
    (hs : d.status = some s) :
    (application_detail_put db uid aid d true).1 = PutResult.updated ∧
    ∀ b ∈ (application_detail_put db uid aid d true).2.applications,
      b.id = aid → b.status = s := by
  have hid : application.id = aid := by
    have h1 : db.applications.find? (fun a => a.id == aid) =
        some application := happ
    simpa using List.find?_some h1
  unfold application_detail_put
  simp only [happ, hjob, hemp, hs, beq_self_eq_true, Bool.not_true,
    Bool.false_eq_true, if_false, ite_false]
  refine ⟨by trivial, ?_⟩
  intro b hb hbid
  simp only [replaceApp, List.mem_map] at hb
  obtain ⟨b0, hb0, rfl⟩ := hb
  cases hen : d.employer_notes <;> simp only [hen] at hb0 ⊢ <;>
    split <;> simp_all

/-- C1 (witness for the amended theorem), at the `hired` store. -/
theorem C1_amended_witness :
    (application_detail_put dbHired 7 3 ⟨some ("reviewed"), none, none⟩
      true).1 = PutResult.updated ∧
    ∀ b ∈ (application_detail_put dbHired 7 3 ⟨some ("reviewed"), none,
      none⟩ true).2.applications, b.id = 3 → b.status = "reviewed" :=
  C1_amended dbHired 7 3 ⟨some ("reviewed"), none, none⟩ "reviewed" appHired
    jobH (by decide) (by decide) (by decide) (by decide)

/-- C2 (counterexample): the claim says the three effects of a submission
commit atomically — on any failure none is observable.  `apply_job` issues
two separate commits; when the second one (the employer notification)
fails, the request answers 500 yet the pending application and the counter
increment are already durably committed and no notification exists. -/
theorem C2_counterexample :
    (apply_job dbFresh 5 1 ⟨none, none, none⟩ true false).1 =
      ApplyResult.serverError ∧
    ((apply_job dbFresh 5 1 ⟨none, none, none⟩ true
        false).2.applications.map
      (fun a => (a.job_id, a.user_id, a.status))) = [(1, 5, "pending")] ∧
    ((apply_job dbFresh 5 1 ⟨none, none, none⟩ true false).2.jobs.map
      (fun j => j.applications_count)) = [2] ∧
    (apply_job dbFresh 5 1 ⟨none, none, none⟩ true false).2.notifications =
      [] := by decide

/-- C2 (amended): the application creation and the counter increment are
one atomic commit — on its failure nothing is observable — but the employer
notification is a second, separate commit: on success all three effects are
present, while a failure of the second commit leaves the application and
the incremented counter committed without the notification. -/
theorem C2_amended (db : DB) (uid jid : Nat) (p : ApplyPayload) (job : Job)
    (hjob : findJob db jid = some job)
    (hact : job.status = "active")
    (hdup : db.applications.any
      (fun a => a.job_id == jid && a.user_id == uid) = false) :
    submitEffects db uid jid p job := by
  unfold submitEffects apply_job
  simp only [hjob, hact, hdup, beq_self_eq_true, Bool.not_true,
    Bool.false_eq_true, if_false, ite_false, Bool.not_false, ite_true]
  exact ⟨⟨by trivial, ⟨_, rfl, rfl, rfl, rfl⟩, by trivial,
      ⟨_, rfl, rfl, rfl⟩⟩,
    ⟨by trivial, by trivial⟩, ⟨by trivial, ⟨_, rfl, rfl, rfl, rfl⟩,
      by trivial⟩⟩

/-- C2 (witness for the amended theorem), at the fresh store. -/
theorem C2_amended_witness :
    submitEffects dbFresh 5 1 ⟨none, none, none⟩ jobH :=
  C2_amended dbFresh 5 1 ⟨none, none, none⟩ jobH (by decide) (by decide)
    (by decide)

/-- C3 (counterexample): the claim says `min_salary v` keeps exactly the
postings with `salary_max ≥ v` and `max_salary v` those with
`salary_min ≤ v`.  The posting with range 10..100 satisfies both spec-side
predicates at v = 50 — yet the code's search returns nothing for either
bound, because it compares each bound against the same-named column
(`salary_min ≥ 50` and `salary_max ≤ 50` both fail on 10..100). -/
theorem C3_counterexample :
    salary_min_spec 50 jobC3 = true ∧ salary_max_spec 50 jobC3 = true ∧
    jobC3 ∈ dbC3.jobs ∧ jobC3.status = "active" ∧
    jobs dbC3 { noJobsArgs with min_salary := some ("50") } =
      JobsResult.ok ⟨[], 0, 0, 1⟩ ∧
    jobs dbC3 { noJobsArgs with max_salary := some ("50") } =
      JobsResult.ok ⟨[], 0, 0, 1⟩ := by decide

/-- C3 (amended): a supplied `min_salary` bound v keeps exactly the matching
postings whose `salary_min` is non-null and ≥ v, and a supplied
`max_salary` bound v keeps exactly those whose `salary_max` is non-null and
≤ v: each bound is compared against the same-named end of the posting's
range, not the opposite end. -/
theorem C3_amended (db : DB) (a : JobsArgs) (v : Int) (mns mxs : Option Int)
    (j : Job) :
    (j ∈ jobsFilter db a (some v) mxs ↔
      j ∈ jobsFilter db a none mxs ∧ optGe j.salary_min v = true) ∧
    (j ∈ jobsFilter db a mns (some v) ↔
      j ∈ jobsFilter db a mns none ∧ optLe j.salary_max v = true) := by
  unfold jobsFilter jobMatches
  constructor <;>
  · simp only [List.mem_filter, Bool.and_eq_true]
    tauto

/-- C4 (counterexample): the claim says an applicant whose only prior
application is `withdrawn` can submit again.  In the code the duplicate
check is status-blind: on the store where worker 5's only application to
posting 1 is `withdrawn`, a new submission is rejected as a duplicate and
the store is unchanged. -/
theorem C4_counterexample :
    (∀ a ∈ dbWd.applications, a.status = "withdrawn") ∧
    (apply_job dbWd 5 1 ⟨none, none, none⟩ true true).1 =
      ApplyResult.alreadyApplied ∧
    (apply_job dbWd 5 1 ⟨none, none, none⟩ true true).2 = dbWd := by decide

/-- C4 (amended): for an active existing posting, submission fails with the
duplicate error exactly when any application — of any status, withdrawn
included — already exists for the (job, applicant) pair, and the rejection
mutates nothing. -/
theorem C4_amended (db : DB) (uid jid : Nat) (p : ApplyPayload)
    (c1 c2 : Bool) (job : Job)
    (hjob : findJob db jid = some job)
    (hact : job.status = "active") :
    ((apply_job db uid jid p c1 c2).1 = ApplyResult.alreadyApplied ↔
      ∃ a ∈ db.applications, a.job_id = jid ∧ a.user_id = uid) ∧
    ((apply_job db uid jid p c1 c2).1 = ApplyResult.alreadyApplied →
      (apply_job db uid jid p c1 c2).2 = db) := by
  unfold apply_job
  simp only [hjob, hact, beq_self_eq_true, Bool.not_true,
    Bool.false_eq_true, if_false, ite_false]
  by_cases hdup : db.applications.any
      (fun a => a.job_id == jid && a.user_id == uid) = true
  · simp only [hdup, ite_true]
    constructor
    · simp only [true_iff]
      rw [List.any_eq_true] at hdup
      obtain ⟨x, hx, hpx⟩ := hdup
      exact ⟨x, hx, by simpa using hpx⟩
    · intro
      trivial
  · simp only [Bool.not_eq_true] at hdup
    simp only [hdup, Bool.false_eq_true, if_false, ite_false]
    constructor
    · constructor
      · intro h
        exfalso
        cases c1 <;> cases c2 <;> simp_all
      · intro ⟨x, hx, h1, h2⟩
        exfalso
        have : db.applications.any
            (fun a => a.job_id == jid && a.user_id == uid) = true := by
          rw [List.any_eq_true]
          exact ⟨x, hx, by simp [h1, h2]⟩
        rw [hdup] at this
        exact Bool.false_ne_true this
    · intro h
      exfalso
      cases c1 <;> cases c2 <;> simp_all

/-- C4 (witness for the amended theorem), at the withdrawn store. -/
theorem C4_amended_witness :
    ((apply_job dbWd 5 1 ⟨none, none, none⟩ true true).1 =
        ApplyResult.alreadyApplied ↔
      ∃ a ∈ dbWd.applications, a.job_id = 1 ∧ a.user_id = 5) ∧
    ((apply_job dbWd 5 1 ⟨none, none, none⟩ true true).1 =
        ApplyResult.alreadyApplied →
      (apply_job dbWd 5 1 ⟨none, none, none⟩ true true).2 = dbWd) :=
  C4_amended dbWd 5 1 ⟨none, none, none⟩ true true jobH (by decide)
    (by decide)

/-- C5: the status mutation and its audit row are committed together.  In
every store reachable from a freshly-seeded store (no applications) by any
sequence of lifecycle requests — and more generally from any well-formed
store — every application with no audit rows still has its submitted status
`pending`, and every application with audit rows has as its current status
exactly the `to_status` of its most recent audit row; moreover a successful
transition appends exactly one audit row recording the prior status as
`from_status`, the requested status as `to_status`, the acting employer,
and the supplied note. -/
theorem C5 :
    (∀ (jobs0 : List Job) (workers0 : List WorkerProfile) (ops : List Op),
      auditInv (run ⟨jobs0, [], [], [], workers0, 0⟩ ops)) ∧
    (∀ (db : DB) (ops : List Op), wfDB db → auditInv (run db ops)) ∧
    (∀ (db : DB) (uid aid : Nat) (d : PutData) (s : String)
      (application : Application) (job : Job),
      findApp db aid = some application →
      findJob db application.job_id = some job →
      job.employer_id = uid →
      d.status = some s →
      (application_detail_put db uid aid d true).1 = PutResult.updated ∧
      (application_detail_put db uid aid d true).2.history =
        db.history ++ [⟨aid, application.status, s, uid, d.notes⟩]) := by
  have hrun : ∀ (db : DB) (ops : List Op), wfDB db → auditInv (run db ops) :=
    fun db ops h => (wfDB_run db ops h).2.2.2
  refine ⟨?_, hrun, ?_⟩
  · intro jobs0 workers0 ops
    apply hrun
    refine ⟨?_, ?_, ?_, ?_⟩
    · intro a ha
      cases ha
    · simp
    · intro e he
      cases he
    · intro a ha
      cases ha
  · intro db uid aid d s application job happ hjob hemp hs
    unfold application_detail_put
    simp only [happ, hjob, hemp, hs, beq_self_eq_true, Bool.not_true,
      Bool.false_eq_true, if_false, ite_false]
    exact ⟨by trivial, by trivial⟩

/-- C5 (witness), discharging the hypotheses at concrete stores. -/
theorem C5_witness :
    auditInv (run ⟨[jobH], [], [], [], [], 0⟩
      [Op.apply 5 1 ⟨none, none, none⟩ true true]) ∧
    auditInv (run dbHired [Op.put 7 3 ⟨some ("reviewed"), none, none⟩
      true]) ∧
    ((application_detail_put dbHired 7 3 ⟨some ("rejected"), some ("n"),
        none⟩ true).1 = PutResult.updated ∧
      (application_detail_put dbHired 7 3 ⟨some ("rejected"), some ("n"),
        none⟩ true).2.history =
        dbHired.history ++ [⟨3, "hired", "rejected", 7, some ("n")⟩]) :=
  ⟨C5.1 [jobH] [] [Op.apply 5 1 ⟨none, none, none⟩ true true],
   C5.2.1 dbHired [Op.put 7 3 ⟨some ("reviewed"), none, none⟩ true]
     (by unfold wfDB auditInv; decide),
   C5.2.2 dbHired 7 3 ⟨some ("rejected"), some ("n"), none⟩ "rejected"
     appHired jobH (by decide) (by decide) (by decide) (by decide)⟩

/-- C6: every row the job search can serve has status `active` and
satisfies the whole supplied filter chain, and a search with every
parameter absent filters on nothing but the `active` restriction — the
pre-pagination row set is exactly the active postings. -/
theorem C6 :
    (∀ (db : DB) (a : JobsArgs) (mns mxs : Option Int) (j : Job),
      j ∈ jobsFilter db a mns mxs →
      j ∈ db.jobs ∧ j.status = "active" ∧ jobMatches a mns mxs j = true) ∧
    (∀ (db : DB) (a : JobsArgs) (r : Paginated Job),
      jobs db a = JobsResult.ok r →
      ∀ j ∈ r.items, j ∈ db.jobs ∧ j.status = "active") ∧
    (∀ db : DB, jobsFilter db noJobsArgs none none =
      db.jobs.filter (fun j => j.status == "active")) := by
  refine ⟨?_, ?_, ?_⟩
  · intro db a mns mxs j hj
    unfold jobsFilter at hj
    rw [List.mem_filter] at hj
    obtain ⟨hmem, hp⟩ := hj
    simp only [Bool.and_eq_true, beq_iff_eq] at hp
    exact ⟨hmem, hp.1, hp.2⟩
  · intro db a r h j hj
    have hfil : ∃ mns mxs, j ∈ jobsFilter db a mns mxs := by
      unfold jobs at h
      rcases h1 : numArg a.min_salary with e1 | v1 <;> rw [h1] at h <;>
        rcases h2 : numArg a.max_salary with e2 | v2 <;> rw [h2] at h <;>
        rcases h3 : intArgD 1 a.page with e3 | v3 <;> rw [h3] at h <;>
        rcases h4 : intArgD 20 a.per_page with e4 | v4 <;> rw [h4] at h <;>
        cases h
      refine ⟨v1, v2, ?_⟩
      simp only [paginate] at hj
      have h5 : j ∈ sortJobs a.sort (jobsFilter db a v1 v2) :=
        List.drop_subset _ _ (List.take_subset _ _ hj)
      exact (mem_sortJobs a.sort _).1 h5
    obtain ⟨mns, mxs, hf⟩ := hfil
    unfold jobsFilter at hf
    rw [List.mem_filter] at hf
    obtain ⟨hmem, hp⟩ := hf
    simp only [Bool.and_eq_true, beq_iff_eq] at hp
    exact ⟨hmem, hp.1⟩
  · intro db
    unfold jobsFilter jobMatches noJobsArgs
    simp [strFilter]

/-- C6 (witness), at the one-posting store with no filters supplied. -/
theorem C6_witness :
    (jobC3 ∈ dbC3.jobs ∧ jobC3.status = "active" ∧
      jobMatches noJobsArgs none none jobC3 = true) ∧
    (jobC3 ∈ dbC3.jobs ∧ jobC3.status = "active") ∧
    jobsFilter dbC3 noJobsArgs none none =
      dbC3.jobs.filter (fun j => j.status == "active") :=
  ⟨C6.1 dbC3 noJobsArgs none none jobC3 (by decide),
   C6.2.1 dbC3 noJobsArgs ⟨[jobC3], 1, 1, 1⟩ (by decide) jobC3 (by decide),
   C6.2.2 dbC3⟩

/-- C7 (counterexample): the claim says a malformed numeric filter value is
reported as a `ValidationError`, not as a server-side error.  In the code
`float('abc')` raises inside the route's `try`, and the catch-all handler
answers with HTTP 500 — a server-side error, not a client-side validation
error. -/
theorem C7_counterexample :
    jobs dbC3 { noJobsArgs with min_salary := some ("abc") } =
      JobsResult.err 500 ∧
    get_workers dbC3 { noWorkersArgs with min_experience := some ("abc") } =
      WorkersResult.err 500 := by decide

/-- C7 (amended): a supplied non-empty numeric filter value that does not
parse is never silently ignored — the whole request fails — but it
surfaces as the generic HTTP 500 server error of the catch-all handler,
not as a client-side validation error; both listing routes are read-only,
so no mutation is attempted either way. -/
theorem C7_amended :
    (∀ db a s, a.min_salary = some s → s ≠ "" → parseNum s = none →
      jobs db a = JobsResult.err 500) ∧
    (∀ db a s, a.max_salary = some s → s ≠ "" → parseNum s = none →
      jobs db a = JobsResult.err 500) ∧
    (∀ db w s, w.min_rate = some s → s ≠ "" → parseNum s = none →
      get_workers db w = WorkersResult.err 500) ∧
    (∀ db w s, w.max_rate = some s → s ≠ "" → parseNum s = none →
      get_workers db w = WorkersResult.err 500) ∧
    (∀ db w s, w.min_experience = some s → s ≠ "" → parseNum s = none →
      get_workers db w = WorkersResult.err 500) ∧
    (∀ db w s, w.user_id = some s → s ≠ "" → parseNum s = none →
      get_workers db w = WorkersResult.err 500) := by
  have hnum : ∀ o s, o = some s → s ≠ "" → parseNum s = none →
      numArg o = Except.error () := by
    intro o s ho hne hp
    subst ho
    simp [numArg, hne, hp]
  have hjobs : ∀ (db : DB) (a : JobsArgs),
      numArg a.min_salary = Except.error () ∨
        numArg a.max_salary = Except.error () →
      jobs db a = JobsResult.err 500 := by
    intro db a h
    unfold jobs
    rcases h with h | h <;> rw [h] <;> split <;> simp_all
  have hworkers : ∀ (db : DB) (w : WorkersArgs),
      numArg w.user_id = Except.error () ∨
        numArg w.min_rate = Except.error () ∨
        numArg w.max_rate = Except.error () ∨
        numArg w.min_experience = Except.error () →
      get_workers db w = WorkersResult.err 500 := by
    intro db w h
    unfold get_workers
    rcases h with h | h | h | h <;> rw [h] <;> split <;> simp_all
  refine ⟨fun db a s h1 h2 h3 => hjobs db a (Or.inl (hnum _ _ h1 h2 h3)),
    fun db a s h1 h2 h3 => hjobs db a (Or.inr (hnum _ _ h1 h2 h3)),
    fun db w s h1 h2 h3 =>
      hworkers db w (Or.inr (Or.inl (hnum _ _ h1 h2 h3))),
    fun db w s h1 h2 h3 =>
      hworkers db w (Or.inr (Or.inr (Or.inl (hnum _ _ h1 h2 h3)))),
    fun db w s h1 h2 h3 =>
      hworkers db w (Or.inr (Or.inr (Or.inr (hnum _ _ h1 h2 h3)))),
    fun db w s h1 h2 h3 => hworkers db w (Or.inl (hnum _ _ h1 h2 h3))⟩

/-- C7 (witness for the amended theorem), at concrete malformed values. -/
theorem C7_amended_witness :
    jobs dbC3 { noJobsArgs with max_salary := some ("12a") } =
      JobsResult.err 500 ∧
    get_workers dbC3 { noWorkersArgs with min_rate := some ("xyz") } =
      WorkersResult.err 500 :=
  ⟨C7_amended.2.1 dbC3 { noJobsArgs with max_salary := some ("12a") } "12a"
     rfl (by decide) (by decide),
   C7_amended.2.2.1 dbC3 { noWorkersArgs with min_rate := some ("xyz") }
     "xyz" rfl (by decide) (by decide)⟩

set_option maxRecDepth 1000000 in
/-- C8 (counterexample): the claim says no request receives more than a
hard cap on the order of 100 items in one page.  The code passes the
caller's `per_page` to `paginate` with no cap: on a store of 150 active
postings, `per_page=150` serves all 150 items in a single page. -/
theorem C8_counterexample :
    (jobsItems (jobs bigDB
      { noJobsArgs with per_page := some ("150") })).length = 150 ∧
    100 < (jobsItems (jobs bigDB
      { noJobsArgs with per_page := some ("150") })).length := by decide

/-- C8 (amended): the effective page size defaults to 20 when `per_page` is
unspecified — the first page then holds min(20, total) items — and a
supplied `per_page` parsing to v ≥ 1 is used as-is with no upper cap: the
first page holds min(v, total) items for arbitrarily large v. -/
theorem C8_amended :
    (∀ (db : DB) (a : JobsArgs) (r : Paginated Job),
      a.page = none → a.per_page = none → jobs db a = JobsResult.ok r →
      r.items.length = min 20 r.total) ∧
    (∀ (db : DB) (a : JobsArgs) (r : Paginated Job) (s : String) (v : Int),
      a.page = none → a.per_page = some s → parseNum s = some v → 1 ≤ v →
      jobs db a = JobsResult.ok r →
      r.items.length = min v.toNat r.total) := by
  constructor
  · intro db a r hp hpp h
    unfold jobs at h
    rw [hp, hpp] at h
    rcases h1 : numArg a.min_salary with e1 | v1 <;> rw [h1] at h <;>
      rcases h2 : numArg a.max_salary with e2 | v2 <;> rw [h2] at h <;>
      simp only [intArgD] at h <;> cases h
    simp [paginate, List.length_take]
  · intro db a r s v hp hpp hv hv1 h
    unfold jobs at h
    rw [hp, hpp] at h
    rcases h1 : numArg a.min_salary with e1 | v1 <;> rw [h1] at h <;>
      rcases h2 : numArg a.max_salary with e2 | v2 <;> rw [h2] at h <;>
      simp only [intArgD, hv] at h <;> cases h
    have hvn : ¬ (v < 1) := by omega
    simp [paginate, List.length_take, hvn]

/-- C8 (witness for the amended theorem), at the one-posting store. -/
theorem C8_amended_witness :
    ((⟨[jobC3], 1, 1, 1⟩ : Paginated Job).items.length =
      min 20 (⟨[jobC3], 1, 1, 1⟩ : Paginated Job).total) ∧
    ((⟨[jobC3], 1, 1, 1⟩ : Paginated Job).items.length =
      min (5 : Int).toNat (⟨[jobC3], 1, 1, 1⟩ : Paginated Job).total) :=
  ⟨C8_amended.1 dbC3 noJobsArgs ⟨[jobC3], 1, 1, 1⟩ rfl rfl (by decide),
   C8_amended.2 dbC3 { noJobsArgs with per_page := some ("5") }
     ⟨[jobC3], 1, 1, 1⟩ "5" 5 rfl rfl (by decide) (by decide) (by decide)⟩

/-- C9: the employer's first view of an application succeeds, sets
`viewed_by_employer` and stamps `viewed_at` with the first view's clock;
any later view by the employer is accepted (not an error) and changes
nothing at all — in particular `viewed_at` keeps exactly the first call's
stamp. -/
theorem C9 (db : DB) (uid aid t1 t2 : Nat) (application : Application)
    (job : Job)
    (happ : findApp db aid = some application)
    (hjob : findJob db application.job_id = some job)
    (hemp : job.employer_id = uid)
    (hnv : application.viewed_by_employer = false) :
    (application_detail_get db uid aid t1 true).1 = DetailGetResult.ok ∧
    findApp (application_detail_get db uid aid t1 true).2 aid =
      some (markViewedApp application t1) ∧
    application_detail_get
        (application_detail_get db uid aid t1 true).2 uid aid t2 true =
      (DetailGetResult.ok, (application_detail_get db uid aid t1 true).2) := by
  have hstate : (application_detail_get db uid aid t1 true).2 =
      { db with applications :=
          replaceApp db.applications (markViewedApp application t1) } := by
    unfold application_detail_get markViewedApp
    simp [happ, hjob, hemp, hnv]
  have hres : (application_detail_get db uid aid t1 true).1 =
      DetailGetResult.ok := by
    unfold application_detail_get
    simp [happ, hjob, hemp, hnv]
  have hfind : findApp (application_detail_get db uid aid t1 true).2 aid =
      some (markViewedApp application t1) := by
    rw [hstate]
    exact find?_replaceApp db.applications aid application _ happ rfl
  refine ⟨hres, hfind, ?_⟩
  rw [hstate] at hfind
  rw [hstate]
  have hjob2 :
      findJob
        { db with applications :=
            replaceApp db.applications (markViewedApp application t1) }
        (markViewedApp application t1).job_id = some job := hjob
  have hv : (markViewedApp application t1).viewed_by_employer = true := rfl
  unfold application_detail_get
  simp only [hfind, hjob2, hemp, hv, beq_self_eq_true, Bool.not_true,
    Bool.and_false, Bool.true_and, Bool.false_eq_true, if_false, ite_false]

/-- C9 (witness), at the unviewed store with clocks 11 and 99. -/
theorem C9_witness :
    (application_detail_get dbV 7 3 11 true).1 = DetailGetResult.ok ∧
    findApp (application_detail_get dbV 7 3 11 true).2 3 =
      some (markViewedApp appUnviewed 11) ∧
    application_detail_get (application_detail_get dbV 7 3 11 true).2 7 3 99
        true =
      (DetailGetResult.ok, (application_detail_get dbV 7 3 11 true).2) :=
  C9 dbV 7 3 11 99 appUnviewed jobH (by decide) (by decide) (by decide)
    (by decide)

/-- C10: a transition request whose new status equals the current status is
accepted: it succeeds, leaves every stored row of the application at the
same status, and still appends one audit row with `from_status` equal to
`to_status` and one status-change notification to the applicant — repeated
identical requests grow the audit trail and the applicant's notifications
without any status change. -/
theorem C10 (db : DB) (uid aid : Nat) (d : PutData)
    (application : Application) (job : Job)
    (happ : findApp db aid = some application)
    (hjob : findJob db application.job_id = some job)
    (hemp : job.employer_id = uid)
    (hs : d.status = some application.status) :
    (application_detail_put db uid aid d true).1 = PutResult.updated ∧
    (application_detail_put db uid aid d true).2.history =
      db.history ++
        [⟨aid, application.status, application.status, uid, d.notes⟩] ∧
    (application_detail_put db uid aid d true).2.notifications =
      db.notifications ++ [⟨application.user_id, "application_status",
        "Application Status Updated",
        "Your application status changed to " ++ application.status,
        "/applications/" ++ toString aid⟩] ∧
    ∀ b ∈ (application_detail_put db uid aid d true).2.applications,
      b.id = aid → b.status = application.status := by
  have hid : application.id = aid := by
    have h1 : db.applications.find? (fun a => a.id == aid) =
        some application := happ
    simpa using List.find?_some h1
  unfold application_detail_put
  simp only [happ, hjob, hemp, hs, beq_self_eq_true, Bool.not_true,
    Bool.false_eq_true, if_false, ite_false]
  refine ⟨by trivial, by trivial, by trivial, ?_⟩
  intro b hb hbid
  simp only [replaceApp, List.mem_map] at hb
  obtain ⟨b0, hb0, rfl⟩ := hb
  cases hen : d.employer_notes <;> simp only [hen] at hb0 ⊢ <;>
    split <;> simp_all

/-- C10 (witness): repeating `hired` on the already-hired application. -/
theorem C10_witness :
    (application_detail_put dbHired 7 3 ⟨some ("hired"), none, none⟩
      true).1 = PutResult.updated ∧
    (application_detail_put dbHired 7 3
        ⟨some ("hired"), none, none⟩ true).2.history =
      dbHired.history ++ [⟨3, "hired", "hired", 7, none⟩] ∧
    (application_detail_put dbHired 7 3
        ⟨some ("hired"), none, none⟩ true).2.notifications =
      dbHired.notifications ++ [⟨5, "application_status",
        "Application Status Updated",
        "Your application status changed to " ++ "hired",
        "/applications/" ++ toString 3⟩] ∧
    ∀ b ∈ (application_detail_put dbHired 7 3
        ⟨some ("hired"), none, none⟩ true).2.applications,
      b.id = 3 → b.status = "hired" :=
  C10 dbHired 7 3 ⟨some ("hired"), none, none⟩ appHired jobH (by decide)
    (by decide) (by decide) (by decide)

end Fep
